import Mathlib

/-!
Verification of the per-security analysis pipeline of the stock-analysis
panel (source file painel5222_v4.5.py).  The Python source is shallowly
embedded: Python strings are lists of characters, provider numbers are
rationals, fallible provider calls are `Except Unit`, absent fields are
`Option`.  Real-valued operations that a rational field cannot express
(square root, n-th root) are abstracted into a `RealOps` parameter; every
theorem quantifies over it, so no theorem depends on a particular choice
of those operations unless it instantiates them explicitly.
-/

/-- A Python string, modelled as its list of characters. -/
abbrev PyStr := List Char

/-- Characters removed by the Python str.strip method (ASCII whitespace). -/
def pyIsSpace (c : Char) : Bool :=
  c = ' ' || c = '\t' || c = '\n' || c = '\r' || c = '\x0b' || c = '\x0c'

/-- ASCII uppercasing of one character, as done by str.upper on the
tickers handled by the panel. -/
def pyUpperChar (c : Char) : Char :=
  match c with
  | 'a' => 'A' | 'b' => 'B' | 'c' => 'C' | 'd' => 'D' | 'e' => 'E'
  | 'f' => 'F' | 'g' => 'G' | 'h' => 'H' | 'i' => 'I' | 'j' => 'J'
  | 'k' => 'K' | 'l' => 'L' | 'm' => 'M' | 'n' => 'N' | 'o' => 'O'
  | 'p' => 'P' | 'q' => 'Q' | 'r' => 'R' | 's' => 'S' | 't' => 'T'
  | 'u' => 'U' | 'v' => 'V' | 'w' => 'W' | 'x' => 'X' | 'y' => 'Y'
  | 'z' => 'Z'
  | other => other

/-- Python str.upper (ASCII model). -/
def pyUpper (s : PyStr) : PyStr := s.map pyUpperChar

/-- Python str.strip: drop whitespace from both ends. -/
def pyStrip (s : PyStr) : PyStr :=
  (((s.dropWhile pyIsSpace).reverse).dropWhile pyIsSpace).reverse

/-- Python str.split with a comma separator: splits at every comma and
keeps empty pieces, and the empty string yields one empty piece. -/
def pySplitComma : PyStr → List PyStr
  | [] => [[]]
  | c :: rest =>
    let r := pySplitComma rest
    if c = ',' then [] :: r
    else
      match r with
      | [] => [[c]]
      | h :: t => (c :: h) :: t

/-- Membership in the character class of the validation pattern
[A-Z0-9.-] used by validar_ticker. -/
def tickerChar (c : Char) : Bool :=
  ('A' ≤ c && c ≤ 'Z') || ('0' ≤ c && c ≤ '9') || c = '.' || c = '-'

/-- Full match of one token against the anchored pattern of one or more
characters of the class [A-Z0-9.-]. -/
def matchPadrao (s : PyStr) : Bool :=
  !s.isEmpty && s.all tickerChar

/-- Embedding of validar_ticker: an empty string is rejected, otherwise
the token is stripped, uppercased and matched against the pattern. -/
def validar_ticker (t : PyStr) : Bool :=
  if t.isEmpty then false
  else matchPadrao (pyUpper (pyStrip t))

/-- MAX_TICKERS_PERMITIDOS from the source. -/
def MAX_TICKERS_PERMITIDOS : ℕ := 20

/-- Embedding of sanitizar_tickers: split the raw input on commas, strip
and uppercase each piece, discard pieces that are empty after stripping,
keep the pieces accepted by validar_ticker, and truncate to the maximum
count.  The two st.warning calls of the source are presentation side
effects and produce no data, so they have no counterpart here. -/
def sanitizar_tickers (ticker_input : PyStr) : List PyStr :=
  if ticker_input.isEmpty then []
  else
    let tickers_brutos :=
      ((pySplitComma ticker_input).filter
        (fun t => !(pyStrip t).isEmpty)).map (fun t => pyUpper (pyStrip t))
    let tickers_validos := tickers_brutos.filter validar_ticker
    tickers_validos.take MAX_TICKERS_PERMITIDOS

/-- Abstraction of the real-valued operations the rational embedding
cannot express: sqrtQ stands for math square root (used by the Graham
price) and root n x for the positive real n-th root x ** (1/n) (used by
the CAGR formulas).  Theorems quantify over this structure. -/
structure RealOps where
  sqrtQ : ℚ → ℚ
  root : ℕ → ℚ → ℚ

/-- Python float ** (1/n) for the cases reachable in the source: an
exponent of exactly 1 is the identity, a negative base with a fractional
exponent yields a complex number (later float() raises, hence error), a
zero base yields zero, and a positive base yields the real n-th root. -/
def pyPowRecip (ops : RealOps) (n : ℕ) (x : ℚ) : Except Unit ℚ :=
  if n = 1 then .ok x
  else if x < 0 then .error ()
  else if x = 0 then .ok 0
  else .ok (ops.root n x)

/-- Arithmetic mean, as pandas mean on a nonempty series. -/
def pyMean (l : List ℚ) : ℚ := l.sum / l.length

/-- Median, as pandas median: sort ascending, take the middle element,
or the mean of the two middle elements for even length. -/
def pyMedian (l : List ℚ) : ℚ :=
  let s := List.insertionSort (· ≤ ·) l
  let n := s.length
  if n = 0 then 0
  else if n % 2 = 1 then s.getD (n / 2) 0
  else (s.getD (n / 2 - 1) 0 + s.getD (n / 2) 0) / 2

/-- Round half to even at the integer scale, the idealisation over the
rationals of the Python builtin round. -/
def roundHalfEven (x : ℚ) : ℤ :=
  let f := ⌊x⌋
  let r := x - f
  if r < 1/2 then f
  else if 1/2 < r then f + 1
  else if f % 2 = 0 then f else f + 1

/-- Python round(x, 2) over the rationals. -/
def pyRound2 (x : ℚ) : ℚ := (roundHalfEven (x * 100) : ℚ) / 100

/-- One raw dividend observation from the provider: its timestamp is
carried as a linear day count (used by the trailing-window filter)
together with the calendar year and month that timestamp falls in. -/
structure DivObs where
  day : ℤ
  ano : ℤ
  mes : ℕ
  valor : ℚ
deriving DecidableEq

/-- One row of the annual dividend table built by obter_dados_dpa. -/
structure AnnualDPA where
  ano : ℤ
  dpa : ℚ
  ticker : PyStr
deriving DecidableEq

/-- Sort annual rows by year descending (sort_values ascending=False). -/
def sortAnoDesc (l : List AnnualDPA) : List AnnualDPA :=
  List.insertionSort (fun a b => b.ano ≤ a.ano) l

/-- Sort annual rows by year ascending (sort_values ascending=True). -/
def sortAnoAsc (l : List AnnualDPA) : List AnnualDPA :=
  List.insertionSort (fun a b => a.ano ≤ b.ano) l

/-- The n consecutive integers starting at lo, ascending. -/
def yearRange (lo : ℤ) : ℕ → List ℤ
  | 0 => []
  | n + 1 => lo :: yearRange (lo + 1) n

/-- Embedding of pandas resample by year end followed by sum: group the
observations by calendar year and sum the amounts, producing one row for
every year from the earliest to the latest observed year inclusive (a
year without observations inside that span gets a zero sum), in
ascending year order.  An empty input produces an empty table. -/
def resample_ye (obs : List DivObs) : List (ℤ × ℚ) :=
  match obs with
  | [] => []
  | o :: rest =>
    let anosL := (o :: rest).map (fun d => d.ano)
    let lo := anosL.foldl min o.ano
    let hi := anosL.foldl max o.ano
    (yearRange lo (hi - lo + 1).toNat).map (fun y =>
      (y,
        (((o :: rest).filter (fun d => decide (d.ano = y))).map
          (fun d => d.valor)).sum))

/-- Embedding of obter_dados_dpa.  nowDay is the current timestamp as a
day count and cy the current calendar year; the trailing window starts
anos * 365 days before nowDay.  The result carries the trimmed annual
table (ascending for presentation), the mean and median over exactly the
trimmed rows, and whether the error message is nonempty (the provider
call raised). -/
def obter_dados_dpa (nowDay cy : ℤ) (anos : ℕ) (t : PyStr)
    (dividends : Except Unit (List DivObs)) :
    List AnnualDPA × ℚ × ℚ × Bool :=
  match dividends with
  | .error _ => ([], 0, 0, true)
  | .ok divs =>
    if divs.isEmpty then ([], 0, 0, false)
    else
      let startDay := nowDay - (anos : ℤ) * 365
      let div_filtrado :=
        divs.filter (fun d => decide (startDay ≤ d.day) && decide (d.day ≤ nowDay))
      let div_anual : List AnnualDPA :=
        (resample_ye div_filtrado).map (fun p => ⟨p.1, p.2, t⟩)
      let div_completo := div_anual.filter (fun r => decide (r.ano < cy))
      let recentes := (sortAnoDesc div_completo).take anos
      let media := if recentes.isEmpty then 0 else pyMean (recentes.map (fun r => r.dpa))
      let mediana := if recentes.isEmpty then 0 else pyMedian (recentes.map (fun r => r.dpa))
      (sortAnoAsc recentes, media, mediana, false)

/-- One row of a financial-statement table: the list pairs a column date
with the cell value for that period, in provider order (most recent
period first); a cell of none models a NaN entry. -/
abbrev StmtRow := List (ℤ × Option ℚ)

/-- A financial-statement table: line-item name paired with its row. -/
abbrev Stmt := List (PyStr × StmtRow)

/-- First alias of the given list that is present in the table index,
the embedding of next((k for k in chaves if k in df.index), None). -/
def stmtFindKey (chaves : List PyStr) (df : Stmt) : Option PyStr :=
  chaves.find? (fun k => df.any (fun r => decide (r.1 = k)))

/-- The row stored under a line-item name (empty if the name is absent,
a state the callers rule out by using stmtFindKey first). -/
def stmtRow (df : Stmt) (k : PyStr) : StmtRow :=
  match df.find? (fun r => decide (r.1 = k)) with
  | some r => r.2
  | none => []

/-- Line-item name Total Debt. -/
def strTotalDebt : PyStr := ['T','o','t','a','l',' ','D','e','b','t']

/-- Line-item name Long Term Debt. -/
def strLongTermDebt : PyStr := ['L','o','n','g',' ','T','e','r','m',' ','D','e','b','t']

/-- Line-item name Short Long Term Debt. -/
def strShortLongTermDebt : PyStr :=
  ['S','h','o','r','t',' ','L','o','n','g',' ','T','e','r','m',' ','D','e','b','t']

/-- Line-item name Stockholders Equity. -/
def strStockholdersEquity : PyStr :=
  ['S','t','o','c','k','h','o','l','d','e','r','s',' ','E','q','u','i','t','y']

/-- Line-item name Total Stockholder Equity. -/
def strTotalStockholderEquity : PyStr :=
  ['T','o','t','a','l',' ','S','t','o','c','k','h','o','l','d','e','r',' ','E','q','u','i','t','y']

/-- Line-item name Common Stock Equity. -/
def strCommonStockEquity : PyStr :=
  ['C','o','m','m','o','n',' ','S','t','o','c','k',' ','E','q','u','i','t','y']

/-- Line-item name EBIT. -/
def strEBIT : PyStr := ['E','B','I','T']

/-- Line-item name Operating Income. -/
def strOperatingIncome : PyStr :=
  ['O','p','e','r','a','t','i','n','g',' ','I','n','c','o','m','e']

/-- Line-item name Depreciation And Amortization. -/
def strDepAndAmort : PyStr :=
  ['D','e','p','r','e','c','i','a','t','i','o','n',' ','A','n','d',' ',
   'A','m','o','r','t','i','z','a','t','i','o','n']

/-- Line-item name Depreciation. -/
def strDepreciation : PyStr :=
  ['D','e','p','r','e','c','i','a','t','i','o','n']

/-- Line-item name Reconciled Depreciation. -/
def strReconciledDepreciation : PyStr :=
  ['R','e','c','o','n','c','i','l','e','d',' ','D','e','p','r','e','c','i','a','t','i','o','n']

/-- Line-item name Total Revenue. -/
def strTotalRevenue : PyStr :=
  ['T','o','t','a','l',' ','R','e','v','e','n','u','e']

/-- Line-item name Net Income. -/
def strNetIncome : PyStr := ['N','e','t',' ','I','n','c','o','m','e']

/-- Accepted balance-sheet aliases for total debt. -/
def chaves_divida : List PyStr := [strTotalDebt, strLongTermDebt, strShortLongTermDebt]

/-- Accepted balance-sheet aliases for stockholders equity. -/
def chaves_pl : List PyStr :=
  [strStockholdersEquity, strTotalStockholderEquity, strCommonStockEquity]

/-- Accepted income-statement aliases for EBIT. -/
def chaves_ebit : List PyStr := [strEBIT, strOperatingIncome]

/-- Accepted cashflow aliases for depreciation and amortization. -/
def chaves_da : List PyStr :=
  [strDepAndAmort, strDepreciation, strReconciledDepreciation]

/-- The provider info mapping, restricted to the fields the source
reads.  A none field models a key that is absent from the mapping (the
source always reads these fields through dict.get, which turns absence
into None). -/
structure Info where
  trailingPE : Option ℚ
  priceToBook : Option ℚ
  returnOnEquity : Option ℚ
  dividendYield : Option ℚ
  setor : Option PyStr
  debtToEquity : Option ℚ
  debtToEbitda : Option ℚ
  enterpriseToEbitda : Option ℚ
  trailingEps : Option ℚ
  bookValue : Option ℚ
  dividendRate : Option ℚ
  regularMarketPrice : Option ℚ
  currentPrice : Option ℚ
deriving DecidableEq

/-- One bar of the price history used by the seasonality analysis: the
calendar month and year of the bar and its closing price. -/
structure Candle where
  mes : ℕ
  ano : ℤ
  close : ℚ
deriving DecidableEq

deriving instance DecidableEq for Except

/-- The Gateway responses for one identifier: each provider access
either raises (error) or returns its data.  Consecutive accesses to the
same property return the same response, matching the hour-long memoized
cache in front of every fetch. -/
structure Gateway where
  dividends : Except Unit (List DivObs)
  info : Except Unit Info
  balance_sheet : Except Unit Stmt
  financials : Except Unit Stmt
  cashflow : Except Unit Stmt
  history : Except Unit (List Candle)
deriving DecidableEq

/-- The debt-to-equity value of obter_dados_fundamentalistas: the
primary field divided by 100 when present, otherwise the balance-sheet
fallback Total Debt over Stockholders Equity, with a zero or absent
denominator (and any raise inside the fallback) resolved to absent.  A
NaN produced by a NaN balance-sheet cell is also represented as absent:
nothing downstream distinguishes the two. -/
def calcular_divida_pl (debtToEquity : Option ℚ) (bs : Except Unit Stmt) : Option ℚ :=
  match debtToEquity with
  | some v => some (v / 100)
  | none =>
    match bs with
    | .error _ => none
    | .ok bsv =>
      if bsv.isEmpty then none
      else
        match stmtFindKey chaves_divida bsv, stmtFindKey chaves_pl bsv with
        | some kd, some kp =>
          match (stmtRow bsv kd).head?, (stmtRow bsv kp).head? with
          | some dv, some pv =>
            match pv.2 with
            | some plv =>
              if plv ≠ 0 then
                match dv.2 with
                | some d => some (d / plv)
                | none => none
              else none
            | none => none
          | _, _ => none
        | _, _ => none

/-- The debt-to-EBITDA value of obter_dados_fundamentalistas, paired
with a flag that is true exactly when the statement-based fallback block
was entered.  The primary provider field always wins when present; the
fallback needs the three statements, a debt alias, an EBIT alias and a
depreciation alias, reconstructs EBITDA as EBIT plus the absolute
depreciation, and resolves a zero EBITDA (or any raise, or a NaN
result) to absent. -/
def obterDividaEbitda (debtToEbitda : Option ℚ)
    (bs fin cf : Except Unit Stmt) : Option ℚ × Bool :=
  match debtToEbitda with
  | some v => (some v, false)
  | none =>
    ((match bs, fin, cf with
      | .ok bsv, .ok finv, .ok cfv =>
        if bsv.isEmpty || finv.isEmpty || cfv.isEmpty then none
        else
          match stmtFindKey chaves_divida bsv, stmtFindKey chaves_ebit finv,
              stmtFindKey chaves_da cfv with
          | some kd, some ke, some ka =>
            match (stmtRow bsv kd).head?, (stmtRow finv ke).head?,
                (stmtRow cfv ka).head? with
            | some dv, some ev, some av =>
              match ev.2, av.2 with
              | some e, some a =>
                let ebitda := e + |a|
                if ebitda ≠ 0 then
                  match dv.2 with
                  | some d => some (d / ebitda)
                  | none => none
                else none
              | _, _ => none
            | _, _, _ => none
          | _, _, _ => none
      | _, _, _ => none), true)

/-- The record built by obter_dados_fundamentalistas, with the two CAGR
fields that processar_ticker later merges into the same dict.  A none
field stands for a missing key as well as a None value: every consumer
reads this record through dict.get, which identifies the two. -/
structure FundRow where
  ticker : PyStr
  pl : Option ℚ
  pvp : Option ℚ
  roe : Option ℚ
  dy : Option ℚ
  setor : Option PyStr
  dividaPL : Option ℚ
  dividaEbitda : Option ℚ
  evEbitda : Option ℚ
  lpa : Option ℚ
  vpa : Option ℚ
  dividendRate : Option ℚ
  cagrReceita : Option ℚ
  cagrLucro : Option ℚ
deriving DecidableEq

/-- The dict returned when obter_dados_fundamentalistas raises: only the
identifier is kept. -/
def FundRow.erro (t : PyStr) : FundRow :=
  ⟨t, none, none, none, none, none, none, none, none, none, none, none, none, none⟩

/-- Embedding of obter_dados_fundamentalistas. -/
def obter_dados_fundamentalistas (gw : Gateway) (t : PyStr) : FundRow :=
  match gw.info with
  | .error _ => FundRow.erro t
  | .ok info =>
    { ticker := t
      pl := info.trailingPE
      pvp := info.priceToBook
      roe := info.returnOnEquity
      dy := info.dividendYield
      setor := info.setor
      dividaPL := calcular_divida_pl info.debtToEquity gw.balance_sheet
      dividaEbitda :=
        (obterDividaEbitda info.debtToEbitda gw.balance_sheet gw.financials gw.cashflow).1
      evEbitda := info.enterpriseToEbitda
      lpa := info.trailingEps
      vpa := info.bookValue
      dividendRate := info.dividendRate
      cagrReceita := none
      cagrLucro := none }

/-- Sort a statement row by column date ascending (sort_index). -/
def sortByDataAsc (row : StmtRow) : StmtRow :=
  List.insertionSort (fun a b => a.1 ≤ b.1) row

/-- The cleaned series the nested calcular_cagr works on: the row of the
resolved line item, sorted by period ascending, restricted to the
trailing years+1 periods, with missing cells dropped afterwards. -/
def serieCagr (df : Stmt) (chave : PyStr) (years : ℕ) : List ℚ :=
  let sorted := sortByDataAsc (stmtRow df chave)
  (sorted.drop (sorted.length - (years + 1))).filterMap (fun p => p.2)

/-- Embedding of the nested calcular_cagr of obter_dados_cagr.  An error
result models the float() TypeError raised on the complex value that a
negative growth ratio produces under a fractional exponent; the caller
catches it. -/
def calcular_cagr (ops : RealOps) (df : Stmt) (chaves_possiveis : List PyStr)
    (years : ℕ) : Except Unit (Option ℚ) :=
  match stmtFindKey chaves_possiveis df with
  | none => .ok none
  | some chave =>
    let serie := serieCagr df chave years
    if serie.length < 2 then .ok none
    else
      match serie with
      | [] => .ok none
      | v0 :: rest =>
        let valor_final := rest.getLastD v0
        let n_periodos := (v0 :: rest).length - 1
        if v0 = 0 then .ok none
        else
          match pyPowRecip ops n_periodos (valor_final / v0) with
          | .error e => .error e
          | .ok p => .ok (some (p - 1))

/-- Embedding of obter_dados_cagr.  The years argument keeps its source
default of 5 at the call site in processar_ticker.  A none result models
the empty dict returned by the except branch (reached when either inner
calcular_cagr call raises on a complex value); some (r, l) carries the
revenue and net-income entries, each itself optional. -/
def obter_dados_cagr (ops : RealOps) (financials : Except Unit Stmt)
    (years : ℕ) : Option (Option ℚ × Option ℚ) :=
  match financials with
  | .error _ => none
  | .ok fin =>
    if fin.isEmpty then some (none, none)
    else
      match calcular_cagr ops fin [strTotalRevenue] years with
      | .error _ => none
      | .ok r =>
        match calcular_cagr ops fin [strNetIncome] years with
        | .error _ => none
        | .ok l => some (r, l)

/-- Python x or y on an optional float: absent and exactly zero both
fall through to the alternative, every other value (negative included)
is kept. -/
def pyOrQ (a : Option ℚ) (b : ℚ) : ℚ :=
  match a with
  | some v => if v ≠ 0 then v else b
  | none => b

/-- Embedding of obter_preco_atual: regularMarketPrice or currentPrice
or 0.0, with a raise resolved to 0.0. -/
def obter_preco_atual (info : Except Unit Info) : ℚ :=
  match info with
  | .error _ => 0
  | .ok i => pyOrQ i.regularMarketPrice (pyOrQ i.currentPrice 0)

/-- Embedding of calcular_preco_teto_bazin. -/
def calcular_preco_teto_bazin (media_dpa taxa_retorno : ℚ) : ℚ :=
  if 0 < media_dpa ∧ 0 < taxa_retorno then media_dpa / taxa_retorno else 0

/-- Embedding of calcular_preco_graham.  The source guard lpa and vpa
and lpa gt 0 and vpa gt 0 collapses to strict positivity of both
present values, since zero is falsy. -/
def calcular_preco_graham (ops : RealOps) (lpa vpa : Option ℚ) : ℚ :=
  match lpa, vpa with
  | some l, some v => if 0 < l ∧ 0 < v then ops.sqrtQ (45 / 2 * l * v) else 0
  | _, _ => 0

/-- Embedding of calcular_margem_seguranca. -/
def calcular_margem_seguranca (preco_teto preco_atual : ℚ) : ℚ :=
  if 0 < preco_atual ∧ 0 < preco_teto then (preco_teto / preco_atual - 1) * 100
  else -100

/-- Embedding of calcular_cagr_dpa: restrict the annual table to
complete years, keep the anos most recent, and apply the CAGR formula
between the first and the last entry of that window (ascending), with
a result of zero when the window is shorter than two entries or either
endpoint is not strictly positive.  The surrounding try and except of
the source cannot fire on this path (the growth ratio of two positive
endpoints is positive), but the error case is kept for fidelity. -/
def calcular_cagr_dpa (ops : RealOps) (cy : ℤ) (df_dpa : List AnnualDPA)
    (anos : ℕ) : ℚ :=
  if df_dpa.isEmpty || df_dpa.length < 2 then 0
  else
    let df_completo := df_dpa.filter (fun r => decide (r.ano < cy))
    if df_completo.length < 2 then 0
    else
      let recentes := (sortAnoDesc df_completo).take anos
      if recentes.length < 2 then 0
      else
        match sortAnoAsc recentes with
        | [] => 0
        | r0 :: rest =>
          let valor_inicial := r0.dpa
          let valor_final := (rest.getLastD r0).dpa
          if valor_inicial ≤ 0 ∨ valor_final ≤ 0 then 0
          else
            match pyPowRecip ops rest.length (valor_final / valor_inicial) with
            | .error _ => 0
            | .ok p => pyRound2 ((p - 1) * 100)

/-- Embedding of the payout computation (source name ends in the word
Ratio): reuse the dividend rate and the earnings per share of the
already-collected fundamentals dict, treating absence as zero through
the Python or, and return zero unless both are strictly positive. -/
def calcular_payout (dados_info : FundRow) : ℚ :=
  let dividendos_anuais := dados_info.dividendRate.getD 0
  let lucro_por_acao := dados_info.lpa.getD 0
  if lucro_por_acao ≤ 0 ∨ dividendos_anuais ≤ 0 then 0
  else pyRound2 (dividendos_anuais / lucro_por_acao * 100)

/-- The iterrows walk of calcular_anos_consecutivos: count rows while
the DPA is strictly positive, stop at the first row that is not. -/
def contarConsecutivos : List AnnualDPA → ℕ
  | [] => 0
  | r :: rest => if 0 < r.dpa then contarConsecutivos rest + 1 else 0

/-- Embedding of calcular_anos_consecutivos: filter to complete years,
order most recent first, and count the unbroken run of positive DPA
from the most recent year backward. -/
def calcular_anos_consecutivos (cy : ℤ) (df_dpa : List AnnualDPA) : ℕ :=
  if df_dpa.isEmpty then 0
  else
    let df_completo := df_dpa.filter (fun r => decide (r.ano < cy))
    if df_completo.isEmpty then 0
    else contarConsecutivos (sortAnoDesc df_completo)

/-- The string Erro. -/
def strErro : PyStr := ['E','r','r','o']

/-- The string N/A. -/
def strNA : PyStr := ['N','/','A']

/-- The string Sem Div. -/
def strSemDiv : PyStr := ['S','e','m',' ','D','i','v','.']

/-- English month abbreviations as produced by strftime with a month
placeholder in the C locale. -/
def nomeMes : ℕ → PyStr
  | 1 => ['J','a','n'] | 2 => ['F','e','b'] | 3 => ['M','a','r']
  | 4 => ['A','p','r'] | 5 => ['M','a','y'] | 6 => ['J','u','n']
  | 7 => ['J','u','l'] | 8 => ['A','u','g'] | 9 => ['S','e','p']
  | 10 => ['O','c','t'] | 11 => ['N','o','v'] | 12 => ['D','e','c']
  | _ => []

/-- Comma-space join of a string list. -/
def joinComma (l : List PyStr) : PyStr := List.intercalate [',', ' '] l

/-- Sort a list of months ascending. -/
def sortNatAsc (l : List ℕ) : List ℕ := List.insertionSort (· ≤ ·) l

/-- Embedding of obter_sazonalidade_e_dividendos: from the full dividend
history, the months whose observation count reaches 30 percent of the
requested years, rendered as sorted month names (or Sem Div.); from the
price history, the three months with the lowest average of the yearly
mean closes, ties resolved toward the earlier month as pandas nsmallest
keeps first occurrences.  An empty history yields N/A and a raise on
either fetch yields Erro for both columns. -/
def obter_sazonalidade_e_dividendos (history : Except Unit (List Candle))
    (dividends : Except Unit (List DivObs)) (anos : ℕ) : PyStr × PyStr :=
  match history, dividends with
  | .ok hist, .ok divs =>
    if hist.isEmpty then (strNA, strNA)
    else
      let col_pagto :=
        if divs.isEmpty then strSemDiv
        else
          let threshold : ℚ := (anos : ℚ) * 3 / 10
          let meses_pagto := sortNatAsc ((divs.map (fun d => d.mes)).dedup.filter
            (fun m => decide (threshold ≤ (((divs.filter (fun d => decide (d.mes = m))).length : ℚ)))))
          let nomes := meses_pagto.map nomeMes
          if nomes.isEmpty then strSemDiv else joinComma nomes
      let months := sortNatAsc ((hist.map (fun b => b.mes)).dedup)
      let mensal_media : List (ℕ × ℚ) := months.map (fun m =>
        let anosM := ((hist.filter (fun b => decide (b.mes = m))).map (fun b => b.ano)).dedup
        (m, pyMean (anosM.map (fun y =>
          pyMean ((hist.filter (fun b => decide (b.mes = m) && decide (b.ano = y))).map
            (fun b => b.close))))))
      let meses_baratos := sortNatAsc
        (((List.insertionSort (fun a b => a.2 ≤ b.2) mensal_media).take 3).map (fun p => p.1))
      (col_pagto, joinComma (meses_baratos.map nomeMes))
  | _, _ => (strErro, strErro)

/-- The valuation row of one processed identifier (the v section of the
dict returned by processar_ticker). -/
structure VRow where
  ticker : PyStr
  precoAtual : ℚ
  precoTeto : ℚ
  precoGraham : ℚ
  margemSeguranca : ℚ
  pagamentoDividendos : PyStr
  melhorMes : PyStr
deriving DecidableEq

/-- The statistics row of one processed identifier (the s section). -/
structure SRow where
  ticker : PyStr
  precoAtual : ℚ
  mediaDPA : ℚ
  medianaDPA : ℚ
  cagrDpa : ℚ
  anosConsecutivos : ℕ
deriving DecidableEq

/-- The extra indicator row holding the payout percentage. -/
structure IExtras where
  ticker : PyStr
  payoutPct : ℚ
deriving DecidableEq

/-- The opportunity alert of one identifier.  The source renders it as a
formatted sentence; the embedding keeps the three data the sentence
interpolates, since only presentation reads the text. -/
structure Alerta where
  ticker : PyStr
  precoAtual : ℚ
  precoTeto : ℚ
deriving DecidableEq

/-- The full structured result of processar_ticker for one identifier. -/
structure Resultado where
  v : VRow
  i : FundRow
  iExtras : IExtras
  s : SRow
  g : List AnnualDPA
  a : Option Alerta
deriving DecidableEq

/-- dict.update of the CAGR mapping into the fundamentals dict: the
empty mapping (a raise inside obter_dados_cagr) adds nothing, otherwise
the two entries are written. -/
def updateFundRow (f : FundRow) (c : Option (Option ℚ × Option ℚ)) : FundRow :=
  match c with
  | none => f
  | some rl => { f with cagrReceita := rl.1, cagrLucro := rl.2 }

/-- Embedding of processar_ticker: the per-security pipeline.  The body
of the source is wrapped in a try and except, but every step below is
already total (each collector resolves its own failures), so the except
branch is unreachable and the pipeline is the plain composition. -/
def processar_ticker (ops : RealOps) (gw : Gateway) (ticker : PyStr)
    (anos : ℕ) (taxa_retorno : ℚ) (cy nowDay : ℤ) : Resultado :=
  let dpa := obter_dados_dpa nowDay cy anos ticker gw.dividends
  let df_dpa := dpa.1
  let media_dpa := dpa.2.1
  let mediana_dpa := dpa.2.2.1
  let dados_fundamentalistas :=
    updateFundRow (obter_dados_fundamentalistas gw ticker)
      (obter_dados_cagr ops gw.financials 5)
  let saz := obter_sazonalidade_e_dividendos gw.history gw.dividends anos
  let preco_atual := obter_preco_atual gw.info
  let preco_teto := calcular_preco_teto_bazin media_dpa taxa_retorno
  let preco_graham :=
    calcular_preco_graham ops dados_fundamentalistas.lpa dados_fundamentalistas.vpa
  let margem_seguranca := calcular_margem_seguranca preco_teto preco_atual
  let cagr_dpa := calcular_cagr_dpa ops cy df_dpa anos
  let payout := calcular_payout dados_fundamentalistas
  let anos_consecutivos := calcular_anos_consecutivos cy df_dpa
  let alerta : Option Alerta :=
    if 0 < margem_seguranca then some ⟨ticker, preco_atual, preco_teto⟩ else none
  { v := { ticker := ticker
           precoAtual := preco_atual
           precoTeto := preco_teto
           precoGraham := preco_graham
           margemSeguranca := margem_seguranca
           pagamentoDividendos := saz.1
           melhorMes := saz.2 }
    i := dados_fundamentalistas
    iExtras := { ticker := ticker, payoutPct := payout }
    s := { ticker := ticker
           precoAtual := preco_atual
           mediaDPA := media_dpa
           medianaDPA := mediana_dpa
           cagrDpa := cagr_dpa
           anosConsecutivos := anos_consecutivos }
    g := df_dpa
    a := alerta }

/-- Embedding of the ThreadPoolExecutor batch loop: every submitted
identifier yields exactly one future, processar_ticker never raises, and
each completed future appends its result, so the collected output is the
per-identifier results listed in completion order.  The ordem argument
is that completion order, an arbitrary permutation of the accepted
identifier list. -/
def processar_lote (ops : RealOps) (gw : PyStr → Gateway) (ordem : List PyStr)
    (anos : ℕ) (taxa_retorno : ℚ) (cy nowDay : ℤ) : List Resultado :=
  ordem.map (fun t => processar_ticker ops (gw t) t anos taxa_retorno cy nowDay)

/-- A gateway whose every access raises. -/
def gwAllRaise (g : Gateway) : Prop :=
  g.dividends = .error () ∧ g.info = .error () ∧ g.balance_sheet = .error () ∧
  g.financials = .error () ∧ g.cashflow = .error () ∧ g.history = .error ()

/-- The fully defaulted result an identifier degrades to when all of its
provider accesses raise: identifier preserved, zero prices and ceiling
and Graham value, sentinel margin of safety, Erro seasonality columns,
bare fundamentals dict, zero statistics, empty chart data, no alert. -/
def resultadoErro (t : PyStr) : Resultado :=
  { v := { ticker := t
           precoAtual := 0
           precoTeto := 0
           precoGraham := 0
           margemSeguranca := -100
           pagamentoDividendos := strErro
           melhorMes := strErro }
    i := FundRow.erro t
    iExtras := { ticker := t, payoutPct := 0 }
    s := { ticker := t
           precoAtual := 0
           mediaDPA := 0
           medianaDPA := 0
           cagrDpa := 0
           anosConsecutivos := 0 }
    g := []
    a := none }

/-- The aggregation sort, line df_valuation.sort_values of the source,
as the contract of pandas sort_values with its default quicksort kind:
the output is a permutation of the input ordered by margin of safety
descending.  The default kind does not promise a stable sort, so the
relative order of rows with equal margin is left unspecified and the
embedding is the relation admitting every compliant output. -/
def sort_values_margem (entrada saida : List VRow) : Prop :=
  saida.Perm entrada ∧
  saida.Pairwise (fun a b => b.margemSeguranca ≤ a.margemSeguranca)

/-- Stability of the aggregation sort in the sense of the specification:
for every margin value, the rows carrying it appear in the output in the
same order as in the input (original fetch-completion order). -/
def ordemEstavel (entrada saida : List VRow) : Prop :=
  ∀ m : ℚ, saida.filter (fun r => decide (r.margemSeguranca = m)) =
    entrada.filter (fun r => decide (r.margemSeguranca = m))

/-- A valuation row with the given identifier and margin of safety and
neutral remaining fields, used by the aggregation-sort statements. -/
def vrowEx (t : PyStr) (m : ℚ) : VRow :=
  { ticker := t, precoAtual := 0, precoTeto := 0, precoGraham := 0,
    margemSeguranca := m, pagamentoDividendos := [], melhorMes := [] }

/-- The claim reading of the nested CAGR computation: locate the metric
under an accepted alias, take the trailing cleaned points, and return a
value only when there are at least two points and the starting value is
strictly positive. -/
def cagrSpecC8 (ops : RealOps) (df : Stmt) (chaves : List PyStr)
    (years : ℕ) : Option ℚ :=
  match stmtFindKey chaves df with
  | none => none
  | some chave =>
    match serieCagr df chave years with
    | [] => none
    | v0 :: rest =>
      if rest.isEmpty then none
      else if 0 < v0 then
        match pyPowRecip ops rest.length (rest.getLastD v0 / v0) with
        | .ok p => some (p - 1)
        | .error _ => none
      else none

/-- The claim reading of the DPA CAGR: apply the CAGR formula between
the first and the last strictly positive DPA value across the trimmed
window, and return zero when the window holds fewer than two positive
points. -/
def cagr9Spec (ops : RealOps) (cy : ℤ) (df_dpa : List AnnualDPA)
    (anos : ℕ) : ℚ :=
  let janela :=
    sortAnoAsc ((sortAnoDesc (df_dpa.filter (fun r => decide (r.ano < cy)))).take anos)
  match (janela.map (fun r => r.dpa)).filter (fun q => decide (0 < q)) with
  | [] => 0
  | v0 :: rest =>
    if rest.isEmpty then 0
    else
      match pyPowRecip ops rest.length (rest.getLastD v0 / v0) with
      | .ok p => pyRound2 ((p - 1) * 100)
      | .error _ => 0

/-- A concrete RealOps interpretation used only to instantiate
counterexamples and witnesses. -/
def opsTeste : RealOps := ⟨fun x => x, fun _ x => x⟩

/-- A small financial-statement table with one missing cell, used by
the growth-metric witnesses. -/
def stmtTeste : Stmt :=
  [(strTotalRevenue, [(4, some 400), (3, some 200), (2, none), (1, some 100)])]

/-- A gateway whose every access raises. -/
def gwErro : Gateway :=
  ⟨.error (), .error (), .error (), .error (), .error (), .error ()⟩

/-- The info mapping of the healthy test gateway. -/
def infoBom : Info :=
  { trailingPE := some 8, priceToBook := some 1, returnOnEquity := some (1/5),
    dividendYield := some (1/10), setor := none,
    debtToEquity := some 50, debtToEbitda := some 2,
    enterpriseToEbitda := some 4, trailingEps := some 2, bookValue := some 10,
    dividendRate := some 1, regularMarketPrice := some 15, currentPrice := none }

/-- An info mapping whose regular market price is exactly zero. -/
def infoTeste : Info :=
  { trailingPE := none, priceToBook := none, returnOnEquity := none,
    dividendYield := none, setor := none, debtToEquity := none,
    debtToEbitda := none, enterpriseToEbitda := none, trailingEps := none,
    bookValue := none, dividendRate := none,
    regularMarketPrice := some 0, currentPrice := some 7 }

/-- A small healthy gateway: every access succeeds, the primary
debt-to-EBITDA field is present, and the statement-based fallback inputs
are simultaneously available. -/
def gwBom : Gateway where
  dividends := .ok [⟨100, 2023, 5, 1⟩, ⟨460, 2024, 5, 1⟩]
  info := .ok infoBom
  balance_sheet := .ok [(strTotalDebt, [(2024, some 100)]),
    (strStockholdersEquity, [(2024, some 200)])]
  financials := .ok [(strEBIT, [(2024, some 40)]),
    (strTotalRevenue, [(2024, some 300), (2023, some 200)]),
    (strNetIncome, [(2024, some 30), (2023, some 20)])]
  cashflow := .ok [(strDepAndAmort, [(2024, some 10)])]
  history := .ok [⟨5, 2023, 10⟩, ⟨6, 2023, 9⟩, ⟨7, 2023, 11⟩, ⟨5, 2024, 12⟩]

/-- The gateway family of the orchestrator witness: identifier A always
raises, every other identifier resolves to the healthy gateway. -/
def gwLote : PyStr → Gateway := fun t => if t = ['A'] then gwErro else gwBom

/-! Helper lemmas about the Python string model. -/

/-- Uppercasing a character does not change whether it is whitespace. -/
theorem pyIsSpace_pyUpperChar (c : Char) : pyIsSpace (pyUpperChar c) = pyIsSpace c := by
  unfold pyUpperChar; split <;> rfl

/-- The image of pyUpperChar contains no lowercase ASCII letter. -/
theorem pyUpperChar_ne_lower (c : Char) :
    ∀ d, d ∈ (['a','b','c','d','e','f','g','h','i','j','k','l','m',
                'n','o','p','q','r','s','t','u','v','w','x','y','z'] : List Char) →
      pyUpperChar c ≠ d := by
  unfold pyUpperChar
  split
  all_goals intro d hd heq
  all_goals first
    | (cases heq; revert hd; decide)
    | simp_all

/-- Uppercasing a character is idempotent. -/
theorem pyUpperChar_idem (c : Char) : pyUpperChar (pyUpperChar c) = pyUpperChar c := by
  have h := pyUpperChar_ne_lower c
  generalize hg : pyUpperChar c = d at h ⊢
  unfold pyUpperChar
  split
  any_goals rfl
  all_goals exact (h _ (by decide) rfl).elim

/-- Uppercasing a string is idempotent. -/
theorem pyUpper_pyUpper (l : PyStr) : pyUpper (pyUpper l) = pyUpper l := by
  unfold pyUpper
  rw [List.map_map]
  exact List.map_congr_left (fun a _ => pyUpperChar_idem a)

/-- Leading-whitespace removal commutes with uppercasing. -/
theorem dropWhile_pyUpper (l : PyStr) :
    (pyUpper l).dropWhile pyIsSpace = pyUpper (l.dropWhile pyIsSpace) := by
  induction l with
  | nil => rfl
  | cons c t ih =>
    simp only [pyUpper, List.map_cons, List.dropWhile_cons, pyIsSpace_pyUpperChar]
    by_cases h : pyIsSpace c = true
    · simpa [h] using ih
    · simp [h]

/-- Reversal commutes with uppercasing. -/
theorem reverse_pyUpper (l : PyStr) : (pyUpper l).reverse = pyUpper l.reverse := by
  simp [pyUpper]

/-- Stripping commutes with uppercasing. -/
theorem pyStrip_pyUpper (l : PyStr) : pyStrip (pyUpper l) = pyUpper (pyStrip l) := by
  unfold pyStrip
  rw [dropWhile_pyUpper, reverse_pyUpper, dropWhile_pyUpper, reverse_pyUpper]

/-- dropWhile is idempotent. -/
theorem dropWhile_idem (p : Char → Bool) (l : PyStr) :
    (l.dropWhile p).dropWhile p = l.dropWhile p := by
  induction l with
  | nil => rfl
  | cons c t ih => by_cases h : p c = true <;> simp [List.dropWhile_cons, h, ih]

/-- The head surviving dropWhile fails the dropped predicate. -/
theorem head?_dropWhile_false (p : Char → Bool) (l : PyStr) (c : Char)
    (h : (l.dropWhile p).head? = some c) : p c = false := by
  induction l with
  | nil => simp at h
  | cons d t ih =>
    by_cases hd : p d = true
    · rw [List.dropWhile_cons, if_pos hd] at h; exact ih h
    · rw [List.dropWhile_cons, if_neg hd] at h
      simp only [List.head?_cons, Option.some.injEq] at h
      cases h
      exact eq_false_of_ne_true hd

/-- dropWhile is the identity when the head already fails the predicate. -/
theorem dropWhile_eq_self_of_head (p : Char → Bool) (l : PyStr)
    (h : ∀ c, l.head? = some c → p c = false) : l.dropWhile p = l := by
  cases l with
  | nil => rfl
  | cons c t =>
    rw [List.dropWhile_cons, if_neg]
    simp [h c rfl]

/-- Stripping a string is idempotent. -/
theorem pyStrip_idem (l : PyStr) : pyStrip (pyStrip l) = pyStrip l := by
  have hstrip : pyStrip l = ((l.dropWhile pyIsSpace).reverse.dropWhile pyIsSpace).reverse := rfl
  set A := l.dropWhile pyIsSpace with hA
  set B := A.reverse.dropWhile pyIsSpace with hB
  have h1 : B.reverse.dropWhile pyIsSpace = B.reverse := by
    apply dropWhile_eq_self_of_head
    intro c hc
    have hsuf : A.reverse.dropWhile pyIsSpace <:+ A.reverse := List.dropWhile_suffix _
    obtain ⟨t, ht⟩ := hsuf
    have hrevA : A = B.reverse ++ t.reverse := by
      have h2 := congrArg List.reverse ht
      simpa [List.reverse_append] using h2.symm
    cases hBr : B.reverse with
    | nil => rw [hBr] at hc; simp at hc
    | cons c0 r =>
      rw [hBr] at hc
      simp only [List.head?_cons, Option.some.injEq] at hc
      subst hc
      exact head?_dropWhile_false pyIsSpace l _ (by rw [← hA, hrevA, hBr]; rfl)
  show ((((B.reverse).dropWhile pyIsSpace).reverse).dropWhile pyIsSpace).reverse = B.reverse
  rw [h1, List.reverse_reverse, hB, dropWhile_idem]

/-- A strip-then-upper normal form is a fixed point of the
normalisation applied by validar_ticker. -/
theorem pyUpper_pyStrip_fix (s : PyStr) :
    pyUpper (pyStrip (pyUpper (pyStrip s))) = pyUpper (pyStrip s) := by
  rw [pyStrip_pyUpper, pyStrip_idem, pyUpper_pyUpper]

/-- A normalised token accepted by validar_ticker matches the pattern
itself, not only after re-normalisation. -/
theorem matchPadrao_of_validar (s t : PyStr) (ht : t = pyUpper (pyStrip s))
    (hv : validar_ticker t = true) : matchPadrao t = true := by
  have hkey : pyUpper (pyStrip t) = t := by
    rw [ht, pyUpper_pyStrip_fix]
  unfold validar_ticker at hv
  by_cases he : t.isEmpty = true
  · rw [if_pos he] at hv; exact absurd hv (by simp)
  · rw [if_neg he] at hv; rwa [hkey] at hv
theorem contar_eq_takeWhile (l : List AnnualDPA) :
    contarConsecutivos l = (l.takeWhile (fun r => decide (0 < r.dpa))).length := by
  induction l with
  | nil => rfl
  | cons r t ih =>
    by_cases h : 0 < r.dpa
    · simp [contarConsecutivos, List.takeWhile_cons, h, ih]
    · simp [contarConsecutivos, List.takeWhile_cons, h]

theorem foldl_min_le_init (l : List ℤ) (a : ℤ) : l.foldl min a ≤ a := by
  induction l generalizing a with
  | nil => simp
  | cons c t ih => exact le_trans (ih (min a c)) (min_le_left a c)

theorem foldl_min_le_mem (l : List ℤ) : ∀ (a x : ℤ), x ∈ l → l.foldl min a ≤ x := by
  induction l with
  | nil => intro a x hx; cases hx
  | cons c t ih =>
    intro a x hx
    rcases List.mem_cons.mp hx with rfl | h
    · exact le_trans (foldl_min_le_init t (min a x)) (min_le_right a x)
    · exact ih (min a c) x h

theorem le_foldl_max_init (l : List ℤ) (a : ℤ) : a ≤ l.foldl max a := by
  induction l generalizing a with
  | nil => simp
  | cons c t ih => exact le_trans (le_max_left a c) (ih (max a c))

theorem le_foldl_max_mem (l : List ℤ) : ∀ (a x : ℤ), x ∈ l → x ≤ l.foldl max a := by
  induction l with
  | nil => intro a x hx; cases hx
  | cons c t ih =>
    intro a x hx
    rcases List.mem_cons.mp hx with rfl | h
    · exact le_trans (le_max_right a x) (le_foldl_max_init t (max a x))
    · exact ih (max a c) x h

theorem length_filter_yearRange (cy lo : ℤ) (n : ℕ) :
    ((yearRange lo n).filter (fun y => decide (y < cy))).length = min n (cy - lo).toNat := by
  induction n generalizing lo with
  | zero => simp [yearRange]
  | succ k ih =>
    simp only [yearRange, List.filter_cons]
    by_cases h : lo < cy
    · rw [if_pos (by simpa using h)]
      simp only [List.length_cons, ih (lo + 1)]
      omega
    · rw [if_neg (by simpa using h)]
      rw [ih (lo + 1)]
      omega

theorem pyMean_perm (l1 l2 : List ℚ) (h : l1.Perm l2) : pyMean l1 = pyMean l2 := by
  unfold pyMean
  rw [h.sum_eq, h.length_eq]

theorem pyMedian_perm (l1 l2 : List ℚ) (h : l1.Perm l2) : pyMedian l1 = pyMedian l2 := by
  have hs : List.insertionSort (· ≤ ·) l1 = List.insertionSort (· ≤ ·) l2 :=
    List.eq_of_perm_of_sorted
      (((List.perm_insertionSort _ _).trans h).trans (List.perm_insertionSort _ _).symm)
      (List.sorted_insertionSort _ _) (List.sorted_insertionSort _ _)
  unfold pyMedian
  rw [hs]

theorem processar_ticker_v_ticker (ops : RealOps) (gw : Gateway) (t : PyStr)
    (anos : ℕ) (taxa : ℚ) (cy nowDay : ℤ) :
    (processar_ticker ops gw t anos taxa cy nowDay).v.ticker = t := rfl

theorem processar_ticker_allRaise (ops : RealOps) (t : PyStr) (anos : ℕ) (taxa : ℚ)
    (cy nowDay : ℤ) (g : Gateway) (hg : gwAllRaise g) :
    processar_ticker ops g t anos taxa cy nowDay = resultadoErro t := by
  obtain ⟨h1, h2, h3, h4, h5, h6⟩ := hg
  cases g
  simp only at h1 h2 h3 h4 h5 h6
  subst h1 h2 h3 h4 h5 h6
  norm_num [processar_ticker, resultadoErro, obter_dados_dpa, obter_dados_fundamentalistas,
    obter_dados_cagr, obter_sazonalidade_e_dividendos, obter_preco_atual,
    calcular_preco_teto_bazin, calcular_preco_graham, calcular_margem_seguranca,
    calcular_cagr_dpa, calcular_payout, calcular_anos_consecutivos, updateFundRow, FundRow.erro]

/-- C4: the margin of safety equals ((ceiling / price) - 1) * 100 when
both ceiling and price are strictly positive and is the sentinel -100 in
every other case; at ceiling 20 and price 15 it is approximately 33.33,
and it is -100 whenever either argument is 0. -/
theorem c4_margem_seguranca :
    (∀ preco_teto preco_atual : ℚ, 0 < preco_teto → 0 < preco_atual →
      calcular_margem_seguranca preco_teto preco_atual = (preco_teto / preco_atual - 1) * 100) ∧
    (∀ preco_teto preco_atual : ℚ, ¬(0 < preco_teto ∧ 0 < preco_atual) →
      calcular_margem_seguranca preco_teto preco_atual = -100) ∧
    |calcular_margem_seguranca 20 15 - 3333/100| ≤ 1/100 ∧
    calcular_margem_seguranca 0 15 = -100 ∧
    calcular_margem_seguranca 20 0 = -100 := by
  refine ⟨?_, ?_, ?_, ?_, ?_⟩
  · intro t p ht hp; simp [calcular_margem_seguranca, ht, hp]
  · intro t p h
    rw [calcular_margem_seguranca, if_neg]
    tauto
  · rw [abs_le]; constructor <;> norm_num [calcular_margem_seguranca]
  · norm_num [calcular_margem_seguranca]
  · norm_num [calcular_margem_seguranca]

/-- Witness for c4_margem_seguranca at ceiling 20, price 15 and at
ceiling 0, price 15. -/
theorem c4_margem_seguranca_witness :
    (0 < (20:ℚ)) ∧ (0 < (15:ℚ)) ∧
    calcular_margem_seguranca 20 15 = ((20:ℚ) / 15 - 1) * 100 ∧
    ¬(0 < (0:ℚ) ∧ 0 < (15:ℚ)) ∧ calcular_margem_seguranca 0 15 = -100 :=
  ⟨by norm_num, by norm_num, c4_margem_seguranca.1 20 15 (by norm_num) (by norm_num),
   by norm_num, c4_margem_seguranca.2.1 0 15 (by norm_num)⟩

/-- C7: the consecutive-dividend-years count is the length of the
unbroken positive-DPA run walked backward from the most recent complete
year, and on the sequence 2020:1, 2021:1, 2022:0, 2023:1 it is 1. -/
theorem c7_anos_consecutivos :
    (∀ (cy : ℤ) (df : List AnnualDPA),
      calcular_anos_consecutivos cy df =
        ((sortAnoDesc (df.filter (fun r => decide (r.ano < cy)))).takeWhile
          (fun r => decide (0 < r.dpa))).length) ∧
    calcular_anos_consecutivos 2024
      [⟨2020, 1, []⟩, ⟨2021, 1, []⟩, ⟨2022, 0, []⟩, ⟨2023, 1, []⟩] = 1 := by
  constructor
  · intro cy df
    unfold calcular_anos_consecutivos
    by_cases h0 : df.isEmpty
    · rw [if_pos h0]
      rw [List.isEmpty_iff.mp h0]
      rfl
    · rw [if_neg h0]
      by_cases h1 : (df.filter (fun r => decide (r.ano < cy))).isEmpty
      · rw [if_pos h1]
        rw [List.isEmpty_iff.mp h1]
        rfl
      · rw [if_neg h1]
        exact contar_eq_takeWhile _
  · decide

/-- C10: the current-price fetch returns the regular-market-price field
only when present and nonzero, falls through to the current-price field
on absence or zero, returns 0 when both are unusable, and a regular
market price of exactly zero is indistinguishable from an absent one. -/
theorem c10_preco_atual :
    (∀ i : Info, ∀ v : ℚ, i.regularMarketPrice = some v → v ≠ 0 →
      obter_preco_atual (.ok i) = v) ∧
    (∀ i : Info, ∀ w : ℚ,
      (i.regularMarketPrice = none ∨ i.regularMarketPrice = some 0) →
      i.currentPrice = some w → w ≠ 0 → obter_preco_atual (.ok i) = w) ∧
    (∀ i : Info,
      (i.regularMarketPrice = none ∨ i.regularMarketPrice = some 0) →
      (i.currentPrice = none ∨ i.currentPrice = some 0) →
      obter_preco_atual (.ok i) = 0) ∧
    (∀ i : Info, ∀ cp : Option ℚ,
      obter_preco_atual (.ok { i with regularMarketPrice := some 0, currentPrice := cp }) =
        obter_preco_atual (.ok { i with regularMarketPrice := none, currentPrice := cp })) := by
  refine ⟨?_, ?_, ?_, ?_⟩
  · intro i v h hv; simp [obter_preco_atual, pyOrQ, h, hv]
  · intro i w hr hc hw
    rcases hr with h | h <;> simp [obter_preco_atual, pyOrQ, h, hc, hw]
  · intro i hr hc
    rcases hr with h | h <;> rcases hc with h2 | h2 <;>
      simp [obter_preco_atual, pyOrQ, h, h2]
  · intro i cp; simp [obter_preco_atual, pyOrQ]

/-- Witness for c10_preco_atual: a zero regular market price falls
through to a current price of 7. -/
theorem c10_preco_atual_witness :
    (infoTeste.regularMarketPrice = none ∨ infoTeste.regularMarketPrice = some 0) ∧
    infoTeste.currentPrice = some 7 ∧ (7:ℚ) ≠ 0 ∧
    obter_preco_atual (.ok infoTeste) = 7 :=
  ⟨Or.inr rfl, rfl, by norm_num,
   c10_preco_atual.2.1 infoTeste 7 (Or.inr rfl) rfl (by norm_num)⟩

/-- C5: when the primary provider debt-to-EBITDA field is present, the
fundamentals collector returns it unchanged and the statement-based
fallback never runs, whatever the statements hold. -/
theorem c5_divida_ebitda (gw : Gateway) (t : PyStr) (i : Info) (v : ℚ)
    (hinfo : gw.info = .ok i) (hprim : i.debtToEbitda = some v) :
    obterDividaEbitda i.debtToEbitda gw.balance_sheet gw.financials gw.cashflow =
      (some v, false) ∧
    (obter_dados_fundamentalistas gw t).dividaEbitda = some v := by
  constructor
  · rw [hprim]; rfl
  · unfold obter_dados_fundamentalistas
    rw [hinfo]
    simp [obterDividaEbitda, hprim]

/-- Witness for c5_divida_ebitda: in gwBom the primary field carries 2
while every fallback input (debt, EBIT, depreciation aliases) is also
available, and the collector still returns 2 without entering the
fallback. -/
theorem c5_divida_ebitda_witness :
    gwBom.info = .ok infoBom ∧ infoBom.debtToEbitda = some 2 ∧
    (∃ bsv, gwBom.balance_sheet = .ok bsv ∧ stmtFindKey chaves_divida bsv = some strTotalDebt) ∧
    obterDividaEbitda infoBom.debtToEbitda gwBom.balance_sheet gwBom.financials gwBom.cashflow =
      (some 2, false) ∧
    (obter_dados_fundamentalistas gwBom ['B']).dividaEbitda = some 2 :=
  ⟨rfl, rfl, ⟨_, rfl, by decide⟩,
   (c5_divida_ebitda gwBom ['B'] infoBom 2 rfl rfl).1,
   (c5_divida_ebitda gwBom ['B'] infoBom 2 rfl rfl).2⟩

/-- The guard on empty input in sanitizar_tickers is redundant: the
split-filter-map-validate-truncate pipeline already sends the empty
string to the empty list. -/
theorem sanitizar_tickers_eq (e : PyStr) :
    sanitizar_tickers e =
      ((((pySplitComma e).filter (fun s => !(pyStrip s).isEmpty)).map
        (fun s => pyUpper (pyStrip s))).filter validar_ticker).take
        MAX_TICKERS_PERMITIDOS := by
  cases e with
  | nil => rfl
  | cons c t => rfl

/-- C3 counterexample: the Normalizer keeps duplicates.  On the raw
input A,A the output is the token A twice, so the output is not
duplicate-free as the claim states. -/
theorem c3_sanitizar_counterexample :
    sanitizar_tickers ['A', ',', 'A'] = [['A'], ['A']] ∧
    ¬ (sanitizar_tickers ['A', ',', 'A']).Nodup := by
  constructor
  · decide
  · decide

/-- C3 amended: every output token of the Normalizer is a trimmed
uppercased token matching the pattern of one or more characters in
A-Z 0-9 dot hyphen, the output size is at most the configured maximum
of 20, and the output preserves the order of the accepted tokens; but
duplicates are not removed (first occurrence is not deduplicated). -/
theorem c3_sanitizar_amended (entrada : PyStr) :
    (∀ t ∈ sanitizar_tickers entrada, matchPadrao t = true) ∧
    (sanitizar_tickers entrada).length ≤ MAX_TICKERS_PERMITIDOS ∧
    (sanitizar_tickers entrada).Sublist
      (((pySplitComma entrada).filter (fun s => !(pyStrip s).isEmpty)).map
        (fun s => pyUpper (pyStrip s))) := by
  rw [sanitizar_tickers_eq]
  refine ⟨?_, ?_, ?_⟩
  · intro t ht
    have ht' := List.mem_of_mem_take ht
    have hv : validar_ticker t = true := List.of_mem_filter ht'
    have htm := List.mem_of_mem_filter ht'
    obtain ⟨s, hs, rfl⟩ := List.mem_map.mp htm
    exact matchPadrao_of_validar s _ rfl hv
  · exact List.length_take_le _ _
  · exact (List.take_sublist _ _).trans (List.filter_sublist _)

/-- Witness for c3_sanitizar_amended on the raw input ab,ab: the token
AB is in the output and matches the pattern, and the output is within
the size bound. -/
theorem c3_sanitizar_amended_witness :
    ['A','B'] ∈ sanitizar_tickers ['a','b',',','a','b'] ∧
    matchPadrao ['A','B'] = true ∧
    (sanitizar_tickers ['a','b',',','a','b']).length ≤ MAX_TICKERS_PERMITIDOS :=
  ⟨by decide, (c3_sanitizar_amended ['a','b',',','a','b']).1 ['A','B'] (by decide),
   (c3_sanitizar_amended ['a','b',',','a','b']).2.1⟩

/-- C6 counterexample: the aggregation sort is delegated to pandas
sort_values under its default quicksort kind, whose contract fixes only
the descending key order; the admitted output that swaps the two
equal-margin rows violates the claimed stability. -/
theorem c6_sort_counterexample :
    sort_values_margem [vrowEx ['A'] 25, vrowEx ['B'] 25]
      [vrowEx ['B'] 25, vrowEx ['A'] 25] ∧
    ¬ ordemEstavel [vrowEx ['A'] 25, vrowEx ['B'] 25]
      [vrowEx ['B'] 25, vrowEx ['A'] 25] := by
  constructor
  · exact ⟨by decide, by decide⟩
  · intro h
    have h25 := h 25
    revert h25
    decide

/-- C6 amended: the aggregation sorts the result table by margin of
safety descending, but the relative order of equal-margin entries is
not specified (pandas default quicksort makes no stability promise).
On the example margins -10, 25, 0, 25 every compliant output has margin
column 25, 25, 0, -10: the two 25-margin entries come first, in one of
the two orders. -/
theorem c6_sort_amended (saida : List VRow)
    (h : sort_values_margem
      [vrowEx ['A'] (-10), vrowEx ['B'] 25, vrowEx ['C'] 0, vrowEx ['D'] 25] saida) :
    saida.map (fun r => r.margemSeguranca) = [25, 25, 0, -10] := by
  obtain ⟨hperm, hsort⟩ := h
  have hm : (saida.map (fun r => r.margemSeguranca)).Perm [-10, 25, 0, 25] := by
    simpa using hperm.map (fun r => r.margemSeguranca)
  have hs : (saida.map (fun r => r.margemSeguranca)).Pairwise (fun a b : ℚ => b ≤ a) :=
    List.pairwise_map.mpr hsort
  haveI : IsAntisymm ℚ (fun a b : ℚ => b ≤ a) := ⟨fun a b h1 h2 => le_antisymm h2 h1⟩
  exact List.eq_of_perm_of_sorted (hm.trans (by decide)) hs (by decide)

/-- Witness for c6_sort_amended: the descending output with the two
25-margin rows in completion order satisfies the sort contract and its
margin column is 25, 25, 0, -10. -/
theorem c6_sort_amended_witness :
    sort_values_margem
      [vrowEx ['A'] (-10), vrowEx ['B'] 25, vrowEx ['C'] 0, vrowEx ['D'] 25]
      [vrowEx ['B'] 25, vrowEx ['D'] 25, vrowEx ['C'] 0, vrowEx ['A'] (-10)] ∧
    ([vrowEx ['B'] 25, vrowEx ['D'] 25, vrowEx ['C'] 0,
      vrowEx ['A'] (-10)].map (fun r => r.margemSeguranca)) = [25, 25, 0, -10] :=
  ⟨⟨by decide, by decide⟩,
   c6_sort_amended _ ⟨by decide, by decide⟩⟩

/-- C8 counterexample: on a two-point revenue series from -10 to -5 the
code checks only that the start is nonzero and returns the ratio-based
value -1/2, while the claim requires a strictly positive starting value
and so demands an undeterminable result. -/
theorem c8_cagr_counterexample :
    calcular_cagr opsTeste [(strTotalRevenue, [(2, some (-5)), (1, some (-10))])]
      [strTotalRevenue] 5 = .ok (some (-(1/2))) ∧
    cagrSpecC8 opsTeste [(strTotalRevenue, [(2, some (-5)), (1, some (-10))])]
      [strTotalRevenue] 5 = none ∧
    calcular_cagr opsTeste [(strTotalRevenue, [(2, some (-5)), (1, some (-10))])]
      [strTotalRevenue] 5 ≠
      .ok (cagrSpecC8 opsTeste [(strTotalRevenue, [(2, some (-5)), (1, some (-10))])]
        [strTotalRevenue] 5) := by
  refine ⟨?_, ?_, ?_⟩
  · norm_num [calcular_cagr, serieCagr, stmtFindKey, stmtRow, sortByDataAsc,
      List.insertionSort, List.orderedInsert, pyPowRecip, List.find?, strTotalRevenue,
      List.filterMap_cons, List.getLastD]
  · norm_num [cagrSpecC8, serieCagr, stmtFindKey, stmtRow, sortByDataAsc,
      List.insertionSort, List.orderedInsert, List.find?, strTotalRevenue,
      List.filterMap_cons]
  · norm_num [calcular_cagr, cagrSpecC8, serieCagr, stmtFindKey, stmtRow, sortByDataAsc,
      List.insertionSort, List.orderedInsert, pyPowRecip, List.find?, strTotalRevenue,
      List.filterMap_cons, List.getLastD]
    simp

/-- C8 amended: the metric is located under an accepted alias and the
trailing years+1 periods are taken with missing cells dropped; the
result is undeterminable when no alias matches, fewer than two points
remain, or the starting value is exactly zero (not: not strictly
positive).  With a nonzero start the formula runs on the ratio of the
last to the first point: a two-point series uses the exact ratio, and a
longer series raises on a negative ratio (the caller then discards both
growth metrics) and otherwise applies the fractional power. -/
theorem c8_cagr_amended (ops : RealOps) (df : Stmt) (chaves : List PyStr) (years : ℕ) :
    (stmtFindKey chaves df = none → calcular_cagr ops df chaves years = .ok none) ∧
    (∀ chave, stmtFindKey chaves df = some chave →
      (serieCagr df chave years).length < 2 →
      calcular_cagr ops df chaves years = .ok none) ∧
    (∀ chave v0 rest, stmtFindKey chaves df = some chave →
      serieCagr df chave years = v0 :: rest → rest ≠ [] →
      (v0 = 0 → calcular_cagr ops df chaves years = .ok none) ∧
      (v0 ≠ 0 → calcular_cagr ops df chaves years =
        Except.map (fun p => some (p - 1))
          (pyPowRecip ops rest.length (rest.getLastD v0 / v0)))) := by
  refine ⟨?_, ?_, ?_⟩
  · intro h; unfold calcular_cagr; rw [h]
  · intro chave h hlen
    unfold calcular_cagr
    rw [h]
    simp only []
    rw [if_pos hlen]
  · intro chave v0 rest h hserie hne
    have hrest : 0 < rest.length := List.length_pos.mpr hne
    constructor
    · intro h0
      unfold calcular_cagr
      rw [h]
      simp only [hserie]
      rw [if_neg (by simp; omega)]
      simp [h0]
    · intro h0
      unfold calcular_cagr
      rw [h]
      simp only [hserie]
      rw [if_neg (by simp; omega)]
      simp only [List.length_cons, Nat.add_sub_cancel, if_neg h0]
      cases hp : pyPowRecip ops rest.length (rest.getLastD v0 / v0) <;>
        simp [Except.map, hp]

/-- Witness for c8_cagr_amended: on a four-period revenue table with one
missing cell the series is 100, 200, 400, the start is nonzero, and the
code applies the formula to the ratio 4 over 2 periods. -/
theorem c8_cagr_amended_witness :
    stmtFindKey [strTotalRevenue] stmtTeste = some strTotalRevenue ∧
    serieCagr stmtTeste strTotalRevenue 5 = [100, 200, 400] ∧
    (100:ℚ) ≠ 0 ∧
    calcular_cagr opsTeste stmtTeste [strTotalRevenue] 5 =
      Except.map (fun p => some (p - 1))
        (pyPowRecip opsTeste ([(200:ℚ), 400].length) ([(200:ℚ), 400].getLastD 100 / 100)) :=
  ⟨by decide, by decide, by decide,
   ((c8_cagr_amended opsTeste stmtTeste [strTotalRevenue] 5).2.2 strTotalRevenue 100
     [200, 400] (by decide) (by decide) (by decide)).2 (by decide)⟩

/-- C9 counterexample: on the window 2019:0, 2020:1, 2021:4 the code
takes the first window entry 0 as the initial value and returns 0, while
the claim applies the formula between the first and last positive values
1 and 4, which gives 300 percent. -/
theorem c9_cagr_dpa_counterexample :
    calcular_cagr_dpa opsTeste 2024 [⟨2019, 0, []⟩, ⟨2020, 1, []⟩, ⟨2021, 4, []⟩] 5 = 0 ∧
    cagr9Spec opsTeste 2024 [⟨2019, 0, []⟩, ⟨2020, 1, []⟩, ⟨2021, 4, []⟩] 5 = 300 ∧
    calcular_cagr_dpa opsTeste 2024 [⟨2019, 0, []⟩, ⟨2020, 1, []⟩, ⟨2021, 4, []⟩] 5 ≠
      cagr9Spec opsTeste 2024 [⟨2019, 0, []⟩, ⟨2020, 1, []⟩, ⟨2021, 4, []⟩] 5 := by
  have h1 : calcular_cagr_dpa opsTeste 2024
      [⟨2019, 0, []⟩, ⟨2020, 1, []⟩, ⟨2021, 4, []⟩] 5 = 0 := by
    norm_num [calcular_cagr_dpa, sortAnoDesc, sortAnoAsc, List.insertionSort,
      List.orderedInsert]
  have h2 : cagr9Spec opsTeste 2024
      [⟨2019, 0, []⟩, ⟨2020, 1, []⟩, ⟨2021, 4, []⟩] 5 = 300 := by
    norm_num [cagr9Spec, sortAnoDesc, sortAnoAsc, List.insertionSort,
      List.orderedInsert, pyPowRecip, List.getLastD, pyRound2, roundHalfEven]
  exact ⟨h1, h2, by rw [h1, h2]; norm_num⟩

/-- C9 amended: the DPA CAGR applies the CAGR formula between the first
and the last entry of the trimmed window (not the first and last
positive values): it is 0 when the window has fewer than two entries or
when either endpoint is not strictly positive, and with two strictly
positive endpoints it is the rounded percentage growth over
length-minus-one periods. -/
theorem c9_cagr_dpa_amended (ops : RealOps) (cy : ℤ) (df : List AnnualDPA) (anos : ℕ) :
    ((sortAnoAsc ((sortAnoDesc (df.filter (fun r => decide (r.ano < cy)))).take anos)).length < 2 →
      calcular_cagr_dpa ops cy df anos = 0) ∧
    (∀ r0 rest,
      sortAnoAsc ((sortAnoDesc (df.filter (fun r => decide (r.ano < cy)))).take anos) =
        r0 :: rest →
      rest ≠ [] →
      ((r0.dpa ≤ 0 ∨ (rest.getLastD r0).dpa ≤ 0) → calcular_cagr_dpa ops cy df anos = 0) ∧
      (0 < r0.dpa → 0 < (rest.getLastD r0).dpa →
        calcular_cagr_dpa ops cy df anos =
          match pyPowRecip ops rest.length ((rest.getLastD r0).dpa / r0.dpa) with
          | .ok p => pyRound2 ((p - 1) * 100)
          | .error _ => 0)) := by
  have hlen_sortAsc : ∀ l : List AnnualDPA, (sortAnoAsc l).length = l.length := by
    intro l; exact List.length_insertionSort _ l
  have hlen_sortDesc : ∀ l : List AnnualDPA, (sortAnoDesc l).length = l.length := by
    intro l; exact List.length_insertionSort _ l
  constructor
  · intro hshort
    unfold calcular_cagr_dpa
    by_cases g1 : (df.isEmpty || decide (df.length < 2)) = true
    · rw [if_pos g1]
    · rw [if_neg g1]
      by_cases g2 : (df.filter (fun r => decide (r.ano < cy))).length < 2
      · rw [if_pos g2]
      · rw [if_neg g2]
        by_cases g3 : ((sortAnoDesc (df.filter (fun r => decide (r.ano < cy)))).take anos).length < 2
        · rw [if_pos g3]
        · exact absurd (by rw [hlen_sortAsc] at hshort; exact hshort) g3
  · intro r0 rest hj hne
    have hrest : 0 < rest.length := List.length_pos.mpr hne
    have hjlen : 2 ≤ ((sortAnoDesc (df.filter (fun r => decide (r.ano < cy)))).take anos).length := by
      have := congrArg List.length hj
      rw [hlen_sortAsc] at this
      simp only [List.length_cons] at this
      omega
    have hfl : 2 ≤ (df.filter (fun r => decide (r.ano < cy))).length := by
      have h1 := List.length_take_le anos (sortAnoDesc (df.filter (fun r => decide (r.ano < cy))))
      have h2 : ((sortAnoDesc (df.filter (fun r => decide (r.ano < cy)))).take anos).length ≤
          (sortAnoDesc (df.filter (fun r => decide (r.ano < cy)))).length :=
        List.length_take_le' _ _
      rw [hlen_sortDesc] at h2
      omega
    have hdf : 2 ≤ df.length := by
      have := List.length_filter_le (fun r => decide (r.ano < cy)) df
      omega
    have g1 : ¬ ((df.isEmpty || decide (df.length < 2)) = true) := by
      simp only [Bool.or_eq_true, decide_eq_true_eq, List.isEmpty_iff]
      push_neg
      constructor
      · intro hnil; rw [hnil] at hdf; simp at hdf
      · omega
    have g2 : ¬ ((df.filter (fun r => decide (r.ano < cy))).length < 2) := by omega
    have g3 : ¬ (((sortAnoDesc (df.filter (fun r => decide (r.ano < cy)))).take anos).length < 2) := by
      omega
    constructor
    · intro hbad
      unfold calcular_cagr_dpa
      rw [if_neg g1, if_neg g2, if_neg g3]
      simp only [hj]
      rw [if_pos hbad]
    · intro hpos1 hpos2
      unfold calcular_cagr_dpa
      rw [if_neg g1, if_neg g2, if_neg g3]
      simp only [hj]
      rw [if_neg (by push_neg; exact ⟨hpos1, hpos2⟩)]
      cases hp : pyPowRecip ops rest.length ((rest.getLastD r0).dpa / r0.dpa) <;> simp [hp]

/-- Witness for c9_cagr_dpa_amended on the two-year window 2020:1,
2021:4: the code applies the formula between the window endpoints. -/
theorem c9_cagr_dpa_amended_witness :
    sortAnoAsc ((sortAnoDesc (([⟨2020, 1, []⟩, ⟨2021, 4, []⟩] : List AnnualDPA).filter
        (fun r => decide (r.ano < (2024:ℤ))))).take 5) =
      [⟨2020, 1, []⟩, ⟨2021, 4, []⟩] ∧
    calcular_cagr_dpa opsTeste 2024 [⟨2020, 1, []⟩, ⟨2021, 4, []⟩] 5 =
      match pyPowRecip opsTeste (([⟨2021, 4, []⟩] : List AnnualDPA).length)
          ((([⟨2021, 4, []⟩] : List AnnualDPA).getLastD ⟨2020, 1, []⟩).dpa /
            (⟨2020, 1, []⟩ : AnnualDPA).dpa) with
      | .ok p => pyRound2 ((p - 1) * 100)
      | .error _ => 0 :=
  ⟨by decide,
   ((c9_cagr_dpa_amended opsTeste 2024 [⟨2020, 1, []⟩, ⟨2021, 4, []⟩] 5).2
     ⟨2020, 1, []⟩ [⟨2021, 4, []⟩] (by decide) (by decide)).2 (by decide) (by decide)⟩

/-- C2: the trimmed annual-dividend table contains only years strictly
before the current year and never more than anos rows, exactly anos when
the windowed series spans at least anos complete years, and the returned
mean and median are computed over exactly the trimmed rows. -/
theorem c2_dpa_trim (nowDay cy : ℤ) (anos : ℕ) (t : PyStr) (divs : List DivObs) :
    (∀ r ∈ (obter_dados_dpa nowDay cy anos t (.ok divs)).1, r.ano < cy) ∧
    (obter_dados_dpa nowDay cy anos t (.ok divs)).1.length ≤ anos ∧
    ((∃ d1 ∈ divs, ∃ d2 ∈ divs,
        (nowDay - (anos:ℤ) * 365 ≤ d1.day ∧ d1.day ≤ nowDay) ∧
        (nowDay - (anos:ℤ) * 365 ≤ d2.day ∧ d2.day ≤ nowDay) ∧
        d2.ano < cy ∧ d1.ano + (anos:ℤ) ≤ d2.ano + 1) →
      (obter_dados_dpa nowDay cy anos t (.ok divs)).1.length = anos) ∧
    (obter_dados_dpa nowDay cy anos t (.ok divs)).2.1 =
      pyMean ((obter_dados_dpa nowDay cy anos t (.ok divs)).1.map (fun r => r.dpa)) ∧
    (obter_dados_dpa nowDay cy anos t (.ok divs)).2.2.1 =
      pyMedian ((obter_dados_dpa nowDay cy anos t (.ok divs)).1.map (fun r => r.dpa)) := by
  by_cases hemp : divs.isEmpty = true
  · have hd : obter_dados_dpa nowDay cy anos t (.ok divs) = ([], 0, 0, false) := by
      simp only [obter_dados_dpa]
      rw [if_pos hemp]
    rw [hd]
    refine ⟨by simp, by simp, ?_, by norm_num [pyMean], by norm_num [pyMedian, List.insertionSort]⟩
    rintro ⟨d1, hd1, -⟩
    rw [List.isEmpty_iff.mp hemp] at hd1
    cases hd1
  · have hd : obter_dados_dpa nowDay cy anos t (.ok divs) =
        (sortAnoAsc ((sortAnoDesc ((((resample_ye (divs.filter
            (fun d => decide (nowDay - (anos:ℤ) * 365 ≤ d.day) && decide (d.day ≤ nowDay)))).map
            (fun p => (⟨p.1, p.2, t⟩ : AnnualDPA))).filter
            (fun r => decide (r.ano < cy))))).take anos),
         (if ((sortAnoDesc ((((resample_ye (divs.filter
            (fun d => decide (nowDay - (anos:ℤ) * 365 ≤ d.day) && decide (d.day ≤ nowDay)))).map
            (fun p => (⟨p.1, p.2, t⟩ : AnnualDPA))).filter
            (fun r => decide (r.ano < cy))))).take anos).isEmpty then 0
          else pyMean ((((sortAnoDesc ((((resample_ye (divs.filter
            (fun d => decide (nowDay - (anos:ℤ) * 365 ≤ d.day) && decide (d.day ≤ nowDay)))).map
            (fun p => (⟨p.1, p.2, t⟩ : AnnualDPA))).filter
            (fun r => decide (r.ano < cy))))).take anos)).map (fun r => r.dpa))),
         (if ((sortAnoDesc ((((resample_ye (divs.filter
            (fun d => decide (nowDay - (anos:ℤ) * 365 ≤ d.day) && decide (d.day ≤ nowDay)))).map
            (fun p => (⟨p.1, p.2, t⟩ : AnnualDPA))).filter
            (fun r => decide (r.ano < cy))))).take anos).isEmpty then 0
          else pyMedian ((((sortAnoDesc ((((resample_ye (divs.filter
            (fun d => decide (nowDay - (anos:ℤ) * 365 ≤ d.day) && decide (d.day ≤ nowDay)))).map
            (fun p => (⟨p.1, p.2, t⟩ : AnnualDPA))).filter
            (fun r => decide (r.ano < cy))))).take anos)).map (fun r => r.dpa))),
         false) := by
      simp only [obter_dados_dpa]
      rw [if_neg hemp]
    rw [hd]
    set F := divs.filter
      (fun d => decide (nowDay - (anos:ℤ) * 365 ≤ d.day) && decide (d.day ≤ nowDay)) with hF
    set C := ((resample_ye F).map (fun p => (⟨p.1, p.2, t⟩ : AnnualDPA))).filter
      (fun r => decide (r.ano < cy)) with hC
    set REC := (sortAnoDesc C).take anos with hREC
    have hperm : (sortAnoAsc REC).Perm REC := List.perm_insertionSort _ _
    refine ⟨?_, ?_, ?_, ?_, ?_⟩
    · intro r hr
      have h1 : r ∈ REC := hperm.mem_iff.mp hr
      have h2 : r ∈ sortAnoDesc C := List.mem_of_mem_take h1
      have h3 : r ∈ C := (List.mem_insertionSort _).mp h2
      have h4 := List.of_mem_filter h3
      simpa using h4
    · calc (sortAnoAsc REC).length = REC.length := List.length_insertionSort _ _
        _ ≤ anos := List.length_take_le _ _
    · rintro ⟨d1, hd1, d2, hd2, hw1, hw2, hcy, hspan⟩
      have hd1F : d1 ∈ F := by
        rw [hF]
        exact List.mem_filter.mpr ⟨hd1, by simp [hw1.1, hw1.2]⟩
      have hd2F : d2 ∈ F := by
        rw [hF]
        exact List.mem_filter.mpr ⟨hd2, by simp [hw2.1, hw2.2]⟩
      rcases hFd : F with _ | ⟨o, rest⟩
      · rw [hFd] at hd1F; cases hd1F
      · have hlo : ((o :: rest).map (fun d => d.ano)).foldl min o.ano ≤ d1.ano := by
          apply foldl_min_le_mem
          rw [hFd] at hd1F
          exact List.mem_map_of_mem _ hd1F
        have hhi : d2.ano ≤ ((o :: rest).map (fun d => d.ano)).foldl max o.ano := by
          apply le_foldl_max_mem
          rw [hFd] at hd2F
          exact List.mem_map_of_mem _ hd2F
        have hClen : C.length =
            min (((((o :: rest).map (fun d => d.ano)).foldl max o.ano) -
                (((o :: rest).map (fun d => d.ano)).foldl min o.ano) + 1).toNat)
              ((cy - (((o :: rest).map (fun d => d.ano)).foldl min o.ano)).toNat) := by
          rw [hC, hFd]
          unfold resample_ye
          simp only [List.map_map]
          rw [List.filter_map]
          rw [List.length_map]
          have := length_filter_yearRange cy
            (((o :: rest).map (fun d => d.ano)).foldl min o.ano)
            (((((o :: rest).map (fun d => d.ano)).foldl max o.ano) -
              (((o :: rest).map (fun d => d.ano)).foldl min o.ano) + 1).toNat)
          rw [← this]
          congr 1
        have hClen2 : anos ≤ C.length := by
          rw [hClen]
          omega
        have hlenDesc : (sortAnoDesc C).length = C.length := List.length_insertionSort _ _
        calc (sortAnoAsc REC).length = REC.length := List.length_insertionSort _ _
          _ = min anos (sortAnoDesc C).length := List.length_take _ _
          _ = min anos C.length := by rw [hlenDesc]
          _ = anos := min_eq_left hClen2
    · show (if REC.isEmpty = true then 0 else pyMean (REC.map (fun r => r.dpa))) =
        pyMean ((sortAnoAsc REC).map (fun r => r.dpa))
      by_cases hrec : REC.isEmpty = true
      · rw [if_pos hrec, List.isEmpty_iff.mp hrec]
        norm_num [sortAnoAsc, List.insertionSort, pyMean]
      · rw [if_neg hrec]
        exact (pyMean_perm _ _ (hperm.map _)).symm
    · show (if REC.isEmpty = true then 0 else pyMedian (REC.map (fun r => r.dpa))) =
        pyMedian ((sortAnoAsc REC).map (fun r => r.dpa))
      by_cases hrec : REC.isEmpty = true
      · rw [if_pos hrec, List.isEmpty_iff.mp hrec]
        norm_num [sortAnoAsc, List.insertionSort, pyMedian]
      · rw [if_neg hrec]
        exact (pyMedian_perm _ _ (hperm.map _)).symm

/-- Witness for c2_dpa_trim: a series with observations in 2023 and 2025
inside the 3-year window before year 2026 spans 3 complete years, and
the trimmed table has exactly 3 rows. -/
theorem c2_dpa_trim_witness :
    (∃ d1 ∈ ([⟨100, 2023, 5, 1⟩, ⟨900, 2025, 5, 2⟩] : List DivObs),
      ∃ d2 ∈ ([⟨100, 2023, 5, 1⟩, ⟨900, 2025, 5, 2⟩] : List DivObs),
        ((1000:ℤ) - (3:ℕ) * 365 ≤ d1.day ∧ d1.day ≤ 1000) ∧
        ((1000:ℤ) - (3:ℕ) * 365 ≤ d2.day ∧ d2.day ≤ 1000) ∧
        d2.ano < 2026 ∧ d1.ano + ((3:ℕ):ℤ) ≤ d2.ano + 1) ∧
    (obter_dados_dpa 1000 2026 3 []
      (.ok [⟨100, 2023, 5, 1⟩, ⟨900, 2025, 5, 2⟩])).1.length = 3 :=
  ⟨by decide,
   (c2_dpa_trim 1000 2026 3 [] [⟨100, 2023, 5, 1⟩, ⟨900, 2025, 5, 2⟩]).2.2.1 (by decide)⟩

/-- C1: the batch yields exactly one per-security result for every
accepted identifier, in an arbitrary completion order, and always
completes; an identifier whose every Gateway access raises degrades to
the fully defaulted result (price 0, ceiling 0, Graham 0, margin -100,
identifier preserved) while every other identifier is computed by the
normal pipeline on its own gateway responses. -/
theorem c1_lote_isolamento (ops : RealOps) (gw : PyStr → Gateway)
    (tickers ordem : List PyStr) (anos : ℕ) (taxa : ℚ) (cy nowDay : ℤ)
    (t0 : PyStr) (hperm : ordem.Perm tickers) (h0 : gwAllRaise (gw t0)) :
    (processar_lote ops gw ordem anos taxa cy nowDay).length = tickers.length ∧
    ((processar_lote ops gw ordem anos taxa cy nowDay).map (fun r => r.v.ticker)).Perm
      tickers ∧
    (∀ r ∈ processar_lote ops gw ordem anos taxa cy nowDay,
      r.v.ticker = t0 → r = resultadoErro t0) ∧
    (∀ r ∈ processar_lote ops gw ordem anos taxa cy nowDay,
      r = processar_ticker ops (gw r.v.ticker) r.v.ticker anos taxa cy nowDay) := by
  have hmap : (processar_lote ops gw ordem anos taxa cy nowDay).map
      (fun r => r.v.ticker) = ordem := by
    unfold processar_lote
    rw [List.map_map]
    exact (List.map_congr_left
      (fun s _ => processar_ticker_v_ticker ops (gw s) s anos taxa cy nowDay)).trans
      (List.map_id _)
  refine ⟨?_, ?_, ?_, ?_⟩
  · unfold processar_lote
    rw [List.length_map, hperm.length_eq]
  · rw [hmap]; exact hperm
  · intro r hr ht
    unfold processar_lote at hr
    obtain ⟨s, hs, rfl⟩ := List.mem_map.mp hr
    have hst : s = t0 := by
      rw [← processar_ticker_v_ticker ops (gw s) s anos taxa cy nowDay]
      exact ht
    subst hst
    exact processar_ticker_allRaise ops s anos taxa cy nowDay (gw s) h0
  · intro r hr
    unfold processar_lote at hr
    obtain ⟨s, hs, rfl⟩ := List.mem_map.mp hr
    simp only [processar_ticker_v_ticker]

/-- Witness for c1_lote_isolamento: a two-identifier batch completed in
reversed order, where identifier A always raises and identifier B has
the healthy gateway. -/
theorem c1_lote_isolamento_witness :
    ([['B'], ['A']] : List PyStr).Perm [['A'], ['B']] ∧
    gwAllRaise (gwLote ['A']) ∧
    (processar_lote opsTeste gwLote [['B'], ['A']] 5 (3/50) 2026 1000).length =
      ([['A'], ['B']] : List PyStr).length ∧
    (∀ r ∈ processar_lote opsTeste gwLote [['B'], ['A']] 5 (3/50) 2026 1000,
      r.v.ticker = ['A'] → r = resultadoErro ['A']) :=
  ⟨by decide, ⟨rfl, rfl, rfl, rfl, rfl, rfl⟩,
   (c1_lote_isolamento opsTeste gwLote [['A'], ['B']] [['B'], ['A']] 5 (3/50) 2026 1000
     ['A'] (by decide) ⟨rfl, rfl, rfl, rfl, rfl, rfl⟩).1,
   (c1_lote_isolamento opsTeste gwLote [['A'], ['B']] [['B'], ['A']] 5 (3/50) 2026 1000
     ['A'] (by decide) ⟨rfl, rfl, rfl, rfl, rfl, rfl⟩).2.2.1⟩
